import Mathlib

/-!
Verification development for a DOOM WAD loader and BSP traversal core
(`src/lib.rs`).  The data model, the lump decoding pipeline, the map
loading routine `change_map` and the BSP traversal `render_bsp_node`
are embedded shallowly:

* machine integers are modelled as `Nat` / `Int` (an `i16` field holds an
  integer in `[-32768, 32768)`, produced by the little-endian decoders);
* the open file is a byte list; `seek` + `read_exact` becomes `readExact`,
  which fails (models an `io::Error` short read) when fewer bytes remain;
* fallible or panicking operations return `Option` (`none` covers both a
  returned `io::Error` and a Rust panic such as an out-of-bounds index);
* the viewer's player position, an `f32` pair in the source that is fed
  from `i16` map data, is modelled as exact integer coordinates, so
  `f32` arithmetic is modelled as exact arithmetic;
* `change_map` mutates `self` through `&mut`, so its model returns the
  outcome together with the final state, which on failure is the state
  as already mutated by the steps that succeeded.
-/

namespace Doom

/-- Little-endian unsigned 16-bit value of two bytes. -/
def leU16 (b0 b1 : Nat) : Nat := b0 + 256 * b1

/-- Reinterpret an unsigned 16-bit value as a signed `i16`. -/
def toI16 (v : Nat) : Int := if v < 32768 then (v : Int) else (v : Int) - 65536

/-- Little-endian signed 16-bit value of two bytes. -/
def leI16 (b0 b1 : Nat) : Int := toI16 (leU16 b0 b1)

/-- Little-endian unsigned 32-bit value of four bytes. -/
def leU32 (b0 b1 b2 b3 : Nat) : Nat :=
  b0 + 256 * b1 + 65536 * b2 + 16777216 * b3

/-- The Rust cast `x as u16` applied to an `i16` value: two's-complement
reinterpretation modulo 2^16. -/
def toU16 (x : Int) : Nat := (x % 65536).toNat

/-- Byte `i` of a chunk, defaulting to 0 (chunks handed to record decoders
always have the full record size, so the default is never consulted). -/
def byteAt (b : List Nat) (i : Nat) : Nat := b.getD i 0

/-- The signed 16-bit field starting at byte offset `i` of a record chunk. -/
def i16At (b : List Nat) (i : Nat) : Int := leI16 (byteAt b i) (byteAt b (i + 1))

/-- `Thing` record (10 bytes): five `i16` fields. -/
structure Thing where
  x : Int
  y : Int
  angle : Int
  t_type : Int
  flags : Int
  deriving DecidableEq, Repr

/-- `LineDef` record (14 bytes): seven `i16` fields. -/
structure LineDef where
  start_vertex : Int
  end_vertex : Int
  flags : Int
  special_type : Int
  sector_tag : Int
  right_sidedef : Int
  left_sidedef : Int
  deriving DecidableEq, Repr

/-- `SideDef` record (30 bytes): two `i16` offsets, three 8-byte texture
names, owning sector index. -/
structure SideDef where
  x_offset : Int
  y_offset : Int
  upper_texture : List Nat
  lower_texture : List Nat
  middle_texture : List Nat
  sector : Int
  deriving DecidableEq, Repr

/-- `Vertex` record (4 bytes): signed 16-bit x, y. -/
structure Vertex where
  x : Int
  y : Int
  deriving DecidableEq, Repr

/-- `Seg` record (12 bytes): six `i16` fields. -/
structure Seg where
  start_vertex : Int
  end_vertex : Int
  angle : Int
  linedef : Int
  direction : Int
  offset : Int
  deriving DecidableEq, Repr

/-- `SubSector` record (4 bytes): seg count and first seg index. -/
structure SubSector where
  num_segs : Int
  first_seg : Int
  deriving DecidableEq, Repr

/-- `Node` record (28 bytes): partition origin and direction, two
bounding boxes of four `i16` each, two child references. -/
structure Node where
  x_partition : Int
  y_partition : Int
  dx_partition : Int
  dy_partition : Int
  front_bbox : List Int
  back_bbox : List Int
  front_child : Int
  back_child : Int
  deriving DecidableEq, Repr

/-- `Sector` record (26 bytes). -/
structure Sector where
  floor_height : Int
  ceiling_height : Int
  floor_texture : List Nat
  ceiling_texture : List Nat
  light_level : Int
  special_type : Int
  tag : Int
  deriving DecidableEq, Repr

/-- Directory entry (16 bytes): lump offset, lump size, 8-byte name. -/
structure Directory where
  offset : Nat
  size : Nat
  name : List Nat
  deriving DecidableEq, Repr

/-- WAD header (12 bytes): 4-byte identification tag, lump count,
directory offset. -/
structure Header where
  identifier : List Nat
  count : Nat
  offset : Nat
  deriving DecidableEq, Repr

/-- The `WAD` state: published geometry arrays, directory, header, the
currently selected map marker index, and the open file's bytes. -/
structure WAD where
  things : List Thing
  line_defs : List LineDef
  side_defs : List SideDef
  vertexes : List Vertex
  segs : List Seg
  ssectors : List SubSector
  nodes : List Node
  sectors : List Sector
  directory : List Directory
  header : Header
  map_index : Option Nat
  file : List Nat
  deriving DecidableEq, Repr

/-- `WAD::slice_to_string` drops every NUL byte of the fixed-size name
(`.filter(|&&c| c != 0)`), not only the trailing padding.  The byte-to-char
conversion of the source is injective on bytes, so the model keeps the
filtered byte list and compares names as byte lists. -/
def slice_to_string (s : List Nat) : List Nat := s.filter (fun c => c != 0)

/-- `seek(Start off)` followed by `read_exact` of `len` bytes: fails
(short read) when fewer than `len` bytes remain past `off`. -/
def readExact (file : List Nat) (off len : Nat) : Option (List Nat) :=
  if off + len ≤ file.length then some ((file.drop off).take len) else none

/-- `WAD::read_header`: reads exactly the 12 header bytes from offset 0
and decodes tag, lump count and directory offset.  The source performs no
validation of the identification tag. -/
def read_header (file : List Nat) : Option Header :=
  match readExact file 0 12 with
  | none => none
  | some b =>
    some { identifier := b.take 4
           count := leU32 (byteAt b 4) (byteAt b 5) (byteAt b 6) (byteAt b 7)
           offset := leU32 (byteAt b 8) (byteAt b 9) (byteAt b 10) (byteAt b 11) }

/-- The map lump order of the source's `MapLumpIndex` enum. -/
inductive MapLumpIndex where
  | Things
  | LineDefs
  | SideDefs
  | Vertexes
  | Segs
  | SSectors
  | Nodes
  | Sectors
  | Reject
  | BlockMap
  deriving DecidableEq, Repr

/-- The discriminant of each `MapLumpIndex` variant. -/
def MapLumpIndex.toNat : MapLumpIndex → Nat
  | .Things => 1
  | .LineDefs => 2
  | .SideDefs => 3
  | .Vertexes => 4
  | .Segs => 5
  | .SSectors => 6
  | .Nodes => 7
  | .Sectors => 8
  | .Reject => 9
  | .BlockMap => 10

/-- `WAD::read_map_lump`: fetch directory entry `offset` (a Rust index
that panics when out of bounds, modelled as `none`), then read exactly
`size` bytes at the entry's offset. -/
def read_map_lump (w : WAD) (offset : Nat) : Option (List Nat) :=
  match w.directory.get? offset with
  | none => none
  | some lump => readExact w.file lump.offset lump.size

/-- The reinterpretation step of `read_map_lump_as`: `len = bytes.len() /
size_of::<T>()` records are carved out of the raw bytes; any remainder is
silently dropped, exactly as the source's integer division does. -/
def decodeArray (recSize : Nat) (dec : List Nat → α) (bytes : List Nat) : List α :=
  (List.range (bytes.length / recSize)).map
    (fun i => dec ((bytes.drop (i * recSize)).take recSize))

/-- `WAD::read_map_lump_as::<T>`: requires a selected map, reads the raw
lump at `map_index + index`, and reinterprets it as records of `recSize`
bytes (`recSize` stands for the source's `size_of::<T>()`, `dec` for the
transmute of one record). -/
def read_map_lump_as (w : WAD) (index : MapLumpIndex) (recSize : Nat)
    (dec : List Nat → α) : Option (List α) :=
  match w.map_index with
  | none => none
  | some map_index =>
    match read_map_lump w (map_index + index.toNat) with
    | none => none
    | some bytes => some (decodeArray recSize dec bytes)

/-- Decode one 10-byte `Thing` record. -/
def decodeThing (b : List Nat) : Thing :=
  { x := i16At b 0, y := i16At b 2, angle := i16At b 4
    t_type := i16At b 6, flags := i16At b 8 }

/-- Decode one 14-byte `LineDef` record. -/
def decodeLineDef (b : List Nat) : LineDef :=
  { start_vertex := i16At b 0, end_vertex := i16At b 2, flags := i16At b 4
    special_type := i16At b 6, sector_tag := i16At b 8
    right_sidedef := i16At b 10, left_sidedef := i16At b 12 }

/-- Decode one 30-byte `SideDef` record. -/
def decodeSideDef (b : List Nat) : SideDef :=
  { x_offset := i16At b 0, y_offset := i16At b 2
    upper_texture := (b.drop 4).take 8
    lower_texture := (b.drop 12).take 8
    middle_texture := (b.drop 20).take 8
    sector := i16At b 28 }

/-- Decode one 4-byte `Vertex` record. -/
def decodeVertex (b : List Nat) : Vertex :=
  { x := i16At b 0, y := i16At b 2 }

/-- Decode one 12-byte `Seg` record. -/
def decodeSeg (b : List Nat) : Seg :=
  { start_vertex := i16At b 0, end_vertex := i16At b 2, angle := i16At b 4
    linedef := i16At b 6, direction := i16At b 8, offset := i16At b 10 }

/-- Decode one 4-byte `SubSector` record. -/
def decodeSubSector (b : List Nat) : SubSector :=
  { num_segs := i16At b 0, first_seg := i16At b 2 }

/-- Decode one 28-byte `Node` record. -/
def decodeNode (b : List Nat) : Node :=
  { x_partition := i16At b 0, y_partition := i16At b 2
    dx_partition := i16At b 4, dy_partition := i16At b 6
    front_bbox := [i16At b 8, i16At b 10, i16At b 12, i16At b 14]
    back_bbox := [i16At b 16, i16At b 18, i16At b 20, i16At b 22]
    front_child := i16At b 24, back_child := i16At b 26 }

/-- Decode one 26-byte `Sector` record. -/
def decodeSector (b : List Nat) : Sector :=
  { floor_height := i16At b 0, ceiling_height := i16At b 2
    floor_texture := (b.drop 4).take 8
    ceiling_texture := (b.drop 12).take 8
    light_level := i16At b 20, special_type := i16At b 22, tag := i16At b 24 }

/-- The eight sequential lump loads of `change_map` after a marker match.
Each step assigns the decoded array to the published field immediately; on
the first failure the function returns the error together with the state
as mutated so far, exactly as the source's `self.things = self.read_...?;`
chain under `&mut self` does. -/
def load_lumps (w : WAD) : Option Bool × WAD :=
  match read_map_lump_as w .Things 10 decodeThing with
  | none => (none, w)
  | some things =>
    let w := { w with things := things }
    match read_map_lump_as w .LineDefs 14 decodeLineDef with
    | none => (none, w)
    | some line_defs =>
      let w := { w with line_defs := line_defs }
      match read_map_lump_as w .SideDefs 30 decodeSideDef with
      | none => (none, w)
      | some side_defs =>
        let w := { w with side_defs := side_defs }
        match read_map_lump_as w .Vertexes 4 decodeVertex with
        | none => (none, w)
        | some vertexes =>
          let w := { w with vertexes := vertexes }
          match read_map_lump_as w .Segs 12 decodeSeg with
          | none => (none, w)
          | some segs =>
            let w := { w with segs := segs }
            match read_map_lump_as w .SSectors 4 decodeSubSector with
            | none => (none, w)
            | some ssectors =>
              let w := { w with ssectors := ssectors }
              match read_map_lump_as w .Nodes 28 decodeNode with
              | none => (none, w)
              | some nodes =>
                let w := { w with nodes := nodes }
                match read_map_lump_as w .Sectors 26 decodeSector with
                | none => (none, w)
                | some sectors => (some true, { w with sectors := sectors })

/-- The enumerated directory scan of `change_map`: on the first entry
whose `slice_to_string` name equals the requested name, record the marker
index and load the eight lumps; otherwise keep scanning. -/
def change_map_loop (w : WAD) (name : List Nat) : List Directory → Nat → Option Bool × WAD
  | [], _ => (some false, w)
  | d :: rest, i =>
    if slice_to_string d.name = name then load_lumps { w with map_index := some i }
    else change_map_loop w name rest (i + 1)

/-- `WAD::change_map`: scan the directory from index 0; `some true` /
`some false` model `Ok(true)` / `Ok(false)`, `none` models a returned
error or panic.  The second component is the final state. -/
def change_map (w : WAD) (name : List Nat) : Option Bool × WAD :=
  change_map_loop w name w.directory 0

/-- `BSP::new` computes `root_node_id = map_data.nodes.len() - 1`.  The
`usize` subtraction underflows on an empty node array (a panic in debug
builds, a wrap to `usize::MAX` in release builds); `none` models that
abnormal outcome, `some` the normally computed root index. -/
def bsp_new_root_node_id (nodes : List Node) : Option Nat :=
  if nodes.length = 0 then none else some (nodes.length - 1)

/-- `BSP::is_on_back_side` with the arithmetic taken as exact: position
the viewpoint relative to the node's partition line by the sign of the
cross product.  The source computes this on `f32` values; `f32` rounding
can flip the comparison when a product exceeds 2^24, which
`is_on_back_side_f32` below models explicitly via `fl32`.  This exact
version is the classification branch used inside the traversal model;
the traversal properties proved about visit counts and visited sets hold
whichever boolean the classification returns, since both branches visit
both children. -/
def is_on_back_side (px py : Int) (node : Node) : Bool :=
  let dx := px - node.x_partition
  let dy := py - node.y_partition
  decide (dx * node.dy_partition - dy * node.dx_partition ≤ 0)

/-- Floor of the base-2 logarithm by structural recursion on fuel (64
covers every magnitude occurring here); structural so that the kernel
can evaluate it inside `decide`. -/
def msbAux : Nat → Nat → Nat
  | 0, _ => 0
  | fuel + 1, n => if n < 2 then 0 else msbAux fuel (n / 2) + 1

/-- Modelled from IEEE-754 binary32: round a non-negative integer to the
nearest value representable with a 24-bit significand, ties to even.
Integers below 2^24 are exact; above, the unit in the last place is
`2 ^ (exponent - 23)`. -/
def roundSig (n : Nat) : Nat :=
  if n < 16777216 then n
  else
    let e := msbAux 64 n
    let ulp := 2 ^ (e - 23)
    let q := n / ulp
    let r := n % ulp
    if 2 * r < ulp then q * ulp
    else if ulp < 2 * r then (q + 1) * ulp
    else if q % 2 = 0 then q * ulp else (q + 1) * ulp

/-- Modelled from IEEE-754 binary32: rounding of an integer-valued
quantity to the nearest `f32`, extended to negatives by sign symmetry
(round to nearest is symmetric). -/
def fl32 (x : Int) : Int :=
  if x < 0 then -(((roundSig (-x).toNat : Nat)) : Int)
  else (((roundSig x.toNat : Nat)) : Int)

/-- `BSP::is_on_back_side` with the source's `f32` arithmetic made
explicit for integer-valued viewpoints: the two subtractions, the two
products and the final difference are each rounded to the nearest `f32`
(`i16` node fields are exactly representable, so their conversions are
exact). -/
def is_on_back_side_f32 (px py : Int) (node : Node) : Bool :=
  let dx := fl32 (px - node.x_partition)
  let dy := fl32 (py - node.y_partition)
  decide (fl32 (fl32 (dx * node.dy_partition) - fl32 (dy * node.dx_partition)) ≤ 0)

/-- `BSP::render_sub_sector`: look up subsector `sub_sector_id` (a Rust
index, panic modelled as `none`), then access segs
`first_seg + i` for `i` in `0..num_segs`, in that order.  The result is
the ordered list of accessed seg indices; `none` models every abnormal
outcome of the loop body:
* `j < 32768` models the `i16` addition `sub_sector.first_seg + i`,
  which on exceeding `i16::MAX` panics in debug builds and in release
  builds wraps to a negative value whose `as usize` cast then panics as
  an out-of-bounds index (the wrapped huge index can never be a valid
  seg index);
* `0 ≤ j` models the `as usize` cast of a negative (non-overflowed)
  index, whose huge result panics as out of bounds;
* `j < w.segs.length` models the seg-array bounds check of the index. -/
def render_sub_sector (w : WAD) (sub_sector_id : Nat) : Option (List Int) :=
  match w.ssectors.get? sub_sector_id with
  | none => none
  | some sub_sector =>
    let idxs := (List.range sub_sector.num_segs.toNat).map
      (fun i : Nat => sub_sector.first_seg + (i : Int))
    if idxs.all (fun j => decide (0 ≤ j) && decide (j < 32768) &&
        decide (j < (w.segs.length : Int)))
    then some idxs else none

/-- `BSP::render_bsp_node`, instrumented to return the ordered list of
subsector ids handed to `render_sub_sector` (the visitor trace).  `node_id`
is the `u16` child reference.  The source recurses without any bound, so
the model carries explicit fuel; `none` covers fuel exhaustion (the
source's unbounded recursion) as well as the Rust panics on out-of-range
indices. -/
def render_bsp_node (w : WAD) (px py : Int) : Nat → Nat → Option (List Nat)
  | 0, _ => none
  | fuel + 1, node_id =>
    if 0x8000 ≤ node_id then
      match render_sub_sector w (node_id - 0x8000) with
      | none => none
      | some _ => some [node_id - 0x8000]
    else
      match w.nodes.get? node_id with
      | none => none
      | some node =>
        if is_on_back_side px py node then
          match render_bsp_node w px py fuel (toU16 node.back_child) with
          | none => none
          | some t1 =>
            match render_bsp_node w px py fuel (toU16 node.front_child) with
            | none => none
            | some t2 => some (t1 ++ t2)
        else
          match render_bsp_node w px py fuel (toU16 node.front_child) with
          | none => none
          | some t1 =>
            match render_bsp_node w px py fuel (toU16 node.back_child) with
            | none => none
            | some t2 => some (t1 ++ t2)

/-- The subsector leaves reachable from a child reference, in the fixed
structural order front child before back child.  Unlike `render_bsp_node`
this does not consult any viewpoint: it is the specification-side notion
of the set of reachable subsectors. -/
def reachable_leaves (w : WAD) : Nat → Nat → Option (List Nat)
  | 0, _ => none
  | fuel + 1, node_id =>
    if 0x8000 ≤ node_id then some [node_id - 0x8000]
    else
      match w.nodes.get? node_id with
      | none => none
      | some node =>
        match reachable_leaves w fuel (toU16 node.front_child),
              reachable_leaves w fuel (toU16 node.back_child) with
        | some t1, some t2 => some (t1 ++ t2)
        | _, _ => none

/-- A child reference of node `i` is good when it either denotes a
subsector (high bit set) whose seg range lies inside the seg array, or a
node with a strictly smaller index (the WAD layout invariant that makes
the tree acyclic, children preceding their parent in the node array). -/
def good_child (w : WAD) (i : Nat) (c : Int) : Bool :=
  (decide (0x8000 ≤ toU16 c) && (render_sub_sector w (toU16 c - 0x8000)).isSome)
    || (decide (toU16 c < 0x8000) && decide (toU16 c < i))

/-- A starting reference is good when it is a valid leaf or a valid node
index. -/
def good_ref (w : WAD) (ref : Nat) : Bool :=
  (decide (0x8000 ≤ ref) && (render_sub_sector w (ref - 0x8000)).isSome)
    || (decide (ref < 0x8000) && decide (ref < w.nodes.length))

/-- Well-formedness of the loaded BSP tree: both child references of
every node are good.  This is the formalisation of the spec's
"well-formed acyclic tree" over the decreasing-child-index layout. -/
def well_formed (w : WAD) : Bool :=
  (List.range w.nodes.length).all fun i =>
    match w.nodes.get? i with
    | some node => good_child w i node.front_child && good_child w i node.back_child
    | none => true

/-- Fuel sufficient to fully explore a good reference: 1 for a leaf,
`ref + 2` for a node (children have strictly smaller indices). -/
def fuel_need (ref : Nat) : Nat := if 0x8000 ≤ ref then 1 else ref + 2

/-- A `WAD` state with no geometry, no directory and an empty file. -/
def emptyWAD : WAD :=
  { things := [], line_defs := [], side_defs := [], vertexes := []
    segs := [], ssectors := [], nodes := [], sectors := []
    directory := [], header := { identifier := [], count := 0, offset := 0 }
    map_index := none, file := [] }

/-- Archive for the partial-load experiment: a zero-size marker named
"E1M1" followed by a single well-formed THINGS lump entry; the LINEDEFS
entry that `change_map` will ask for next does not exist. -/
def wadC1 : WAD :=
  { emptyWAD with
    directory :=
      [ { offset := 0, size := 0, name := [69, 49, 77, 49, 0, 0, 0, 0] },
        { offset := 0, size := 10, name := [84, 72, 73, 78, 71, 83, 0, 0] } ]
    header := { identifier := [73, 87, 65, 68], count := 2, offset := 0 }
    file := [0, 0, 0, 0, 0, 0, 0, 0, 0, 0] }

/-- Archive state for the truncation experiment: map marker selected at
index 0 and a 6-byte VERTEXES lump (6 is not a multiple of the 4-byte
`Vertex` record size). -/
def wadC2 : WAD :=
  { emptyWAD with
    directory :=
      [ { offset := 0, size := 0, name := [69, 49, 77, 49, 0, 0, 0, 0] },
        { offset := 0, size := 0, name := [0, 0, 0, 0, 0, 0, 0, 0] },
        { offset := 0, size := 0, name := [0, 0, 0, 0, 0, 0, 0, 0] },
        { offset := 0, size := 0, name := [0, 0, 0, 0, 0, 0, 0, 0] },
        { offset := 0, size := 6, name := [86, 69, 82, 84, 69, 88, 69, 83] } ]
    map_index := some 0
    file := [1, 0, 2, 0, 3, 0] }

/-- A single self-referencing node: both child references point back to
node 0, a cyclic tree. -/
def wadC6 : WAD :=
  { emptyWAD with
    nodes := [ { x_partition := 0, y_partition := 0
                 dx_partition := 1, dy_partition := 1
                 front_bbox := [0, 0, 0, 0], back_bbox := [0, 0, 0, 0]
                 front_child := 0, back_child := 0 } ] }

/-- A 12-byte archive whose identification tag is "XXXX", not a
recognized magic value. -/
def fileC8 : List Nat := [88, 88, 88, 88, 0, 0, 0, 0, 0, 0, 0, 0]

/-- An archive of fewer than 12 bytes (short read). -/
def fileC8short : List Nat := [88, 88, 88]

/-- Modelled from the spec: the set of recognized identification tags,
the ASCII magic values "IWAD" and "PWAD".  The source contains no tag
validation at all, so this set exists only in the spec. -/
def recognized_magics : List (List Nat) := [[73, 87, 65, 68], [80, 87, 65, 68]]

/-- Modelled from the spec: name comparison that strips only the trailing
NUL padding of a fixed 8-byte name (the spec's stated comparison; the
source's `slice_to_string` instead drops every NUL byte). -/
def trim_trailing_nuls (s : List Nat) : List Nat :=
  (s.reverse.dropWhile (fun c => c == 0)).reverse

/-- A directory whose single entry is named "A\0B" padded with NULs: the
name contains an interior NUL byte. -/
def wadC9 : WAD :=
  { emptyWAD with
    directory := [ { offset := 0, size := 0, name := [65, 0, 66, 0, 0, 0, 0, 0] } ] }

/-- A concrete node whose partition line passes through the origin. -/
def nodeC4 : Node :=
  { x_partition := 0, y_partition := 0, dx_partition := 1, dy_partition := 1
    front_bbox := [0, 0, 0, 0], back_bbox := [0, 0, 0, 0]
    front_child := 0, back_child := 0 }

/-- A node (all fields valid `i16`) at which `f32` rounding flips the
classification: from the origin, `dx = 16385`, `dy = 16393`, so the exact
cross product is `16385 * 2049 - 16393 * 2048 = 1`, while in `f32` the
first product rounds down to `33572864.0` (the unit in the last place is
4 there) and the second is exactly `33572864.0`, making the computed
cross `0.0`. -/
def nodeC4f : Node :=
  { x_partition := -16385, y_partition := -16393
    dx_partition := 2048, dy_partition := 2049
    front_bbox := [0, 0, 0, 0], back_bbox := [0, 0, 0, 0]
    front_child := 0, back_child := 0 }

/-- `load_lumps` assigns only the eight geometry arrays; the selected
map index is whatever it was when the loads started. -/
theorem load_lumps_map_index (w : WAD) : (load_lumps w).2.map_index = w.map_index := by
  unfold load_lumps
  repeat' first
    | rfl
    | split
    | dsimp only

/-- When no directory entry's NUL-filtered name equals the requested
name, the scan falls off the end: `Ok(false)` and the state untouched. -/
theorem change_map_loop_no_match (w : WAD) (name : List Nat) :
    ∀ ds i, (∀ d ∈ ds, slice_to_string d.name ≠ name) →
      change_map_loop w name ds i = (some false, w) := by
  intro ds
  induction ds with
  | nil => intro i _; rfl
  | cons d rest ih =>
    intro i h
    have hd : slice_to_string d.name ≠ name := h d (List.mem_cons_self d rest)
    simp only [change_map_loop, if_neg hd]
    exact ih (i + 1) (fun d' hd' => h d' (List.mem_cons_of_mem d hd'))

/-- The scan selects the first matching entry: if entry `k` of the
remaining suffix matches and nothing before it does, the final state's
map index is the base index plus `k`. -/
theorem change_map_loop_first_match (w : WAD) (name : List Nat) :
    ∀ ds i k d, ds.get? k = some d → slice_to_string d.name = name →
      (∀ j dj, j < k → ds.get? j = some dj → slice_to_string dj.name ≠ name) →
      (change_map_loop w name ds i).2.map_index = some (i + k) := by
  intro ds
  induction ds with
  | nil => intro i k d hget; simp at hget
  | cons d0 rest ih =>
    intro i k d hget hname hfirst
    cases k with
    | zero =>
      simp only [List.get?] at hget
      cases hget
      simp only [change_map_loop, if_pos hname, load_lumps_map_index, Nat.add_zero]
    | succ k' =>
      have hd0 : slice_to_string d0.name ≠ name :=
        hfirst 0 d0 (Nat.succ_pos k') rfl
      simp only [change_map_loop, if_neg hd0]
      have := ih (i + 1) k' d hget hname
        (fun j dj hj hget' => hfirst (j + 1) dj (Nat.succ_lt_succ hj) hget')
      rw [this]
      congr 1
      omega

/-- C1: a partially failed `change_map` is not transactional.  On the
archive `wadC1` the marker "E1M1" is found, the THINGS lump decodes, and
the LINEDEFS load then fails; `change_map` returns the error, yet the
published `things` array and the published map index have already been
overwritten — the staged-swap behavior the claim describes does not
exist in the code. -/
theorem change_map_partial_failure_mutates_published_state :
    (change_map wadC1 [69, 49, 77, 49]).1 = none
    ∧ (change_map wadC1 [69, 49, 77, 49]).2.things ≠ wadC1.things
    ∧ (change_map wadC1 [69, 49, 77, 49]).2.map_index ≠ wadC1.map_index := by
  decide

/-- C2: `read_map_lump_as` silently truncates.  On `wadC2` the VERTEXES
lump is 6 bytes, not a multiple of the 4-byte record size, yet the typed
decode succeeds with `6 / 4 = 1` record instead of failing with a
FormatError. -/
theorem read_map_lump_as_truncates_remainder :
    read_map_lump_as wadC2 .Vertexes 4 decodeVertex = some [{ x := 1, y := 2 }]
    ∧ (wadC2.directory.getD 4 { offset := 0, size := 0, name := [] }).size % 4 ≠ 0 := by
  decide

/-- Counterexample for C4: at the viewpoint `(0, 0)` and node `nodeC4f`
(all fields valid `i16`, the viewpoint a valid Thing position) the exact
cross product is `+1`, so the claim's biconditional demands Front; the
exact-arithmetic reading agrees (`is_on_back_side = false`), but the
source's `f32` computation — products and difference rounded to nearest
binary32 — yields `0.0 ≤ 0.0` and returns Back. -/
theorem is_on_back_side_exact_sign_counterexample :
    (((0 : Int) - nodeC4f.x_partition) * nodeC4f.dy_partition
      - ((0 : Int) - nodeC4f.y_partition) * nodeC4f.dx_partition = 1)
    ∧ is_on_back_side_f32 0 0 nodeC4f = true
    ∧ is_on_back_side 0 0 nodeC4f = false := by
  decide

/-- Rounding to binary32 is the identity on integers of magnitude below
2^24. -/
theorem fl32_eq_of_small (x : Int) (hl : -16777216 < x) (hr : x < 16777216) : fl32 x = x := by
  unfold fl32
  split_ifs with hx
  · have ht : (((-x).toNat : Nat) : Int) = -x := Int.toNat_of_nonneg (by omega)
    have hn : (-x).toNat < 16777216 := by omega
    rw [roundSig, if_pos hn]
    omega
  · have ht : ((x.toNat : Nat) : Int) = x := Int.toNat_of_nonneg (by omega)
    have hn : x.toNat < 16777216 := by omega
    rw [roundSig, if_pos hn]
    omega

/-- C4 (amended): the classification computes `dx`, `dy` and
`cross = dx * dirY - dy * dirX` in `f32` — each subtraction, each
product and the difference rounded to the nearest binary32 value — and
returns Back exactly when that rounded cross is non-positive.  When `dx`
and `dy` are exactly representable (magnitude below 2^24, as for every
position and partition origin drawn from `i16` data), a viewpoint
exactly on the partition line (exact cross = 0) still classifies as
Back; the exact-arithmetic biconditional of the original claim holds
only when the products are also exactly representable. -/
theorem is_on_back_side_f32_cross_sign (px py : Int) (node : Node) :
    (is_on_back_side_f32 px py node = true ↔
      fl32 (fl32 (fl32 (px - node.x_partition) * node.dy_partition)
        - fl32 (fl32 (py - node.y_partition) * node.dx_partition)) ≤ 0)
    ∧ (-16777216 < px - node.x_partition → px - node.x_partition < 16777216 →
       -16777216 < py - node.y_partition → py - node.y_partition < 16777216 →
       (px - node.x_partition) * node.dy_partition
         - (py - node.y_partition) * node.dx_partition = 0 →
      is_on_back_side_f32 px py node = true) := by
  constructor
  · unfold is_on_back_side_f32
    exact decide_eq_true_iff
  · intro hdl hdr hel her hcross
    have e1 : fl32 (px - node.x_partition) = px - node.x_partition :=
      fl32_eq_of_small _ hdl hdr
    have e2 : fl32 (py - node.y_partition) = py - node.y_partition :=
      fl32_eq_of_small _ hel her
    unfold is_on_back_side_f32
    dsimp only
    rw [e1, e2]
    have hp : (px - node.x_partition) * node.dy_partition
        = (py - node.y_partition) * node.dx_partition := by omega
    rw [hp, sub_self]
    rfl

/-- Witness for C4: the origin lies exactly on `nodeC4`'s partition line
(`i16` data, so `dx` and `dy` are exact) and the `f32` classification
returns Back. -/
theorem is_on_back_side_f32_cross_sign_witness :
    is_on_back_side_f32 0 0 nodeC4 = true :=
  (is_on_back_side_f32_cross_sign 0 0 nodeC4).2
    (by decide) (by decide) (by decide) (by decide) (by decide)

/-- C7: `BSP::new` computes the root as `nodes.len() - 1` with a bare
`usize` subtraction: correct (last element) on a non-empty array, but an
arithmetic underflow — not a sentinel "no tree" state — on an empty one. -/
theorem bsp_new_root_underflow_on_empty :
    bsp_new_root_node_id [] = none
    ∧ ∀ ns : List Node, ns ≠ [] → bsp_new_root_node_id ns = some (ns.length - 1) := by
  refine ⟨rfl, fun ns h => ?_⟩
  simp [bsp_new_root_node_id, List.length_eq_zero, h]

/-- Witness for C7: on a one-node array the root index is 0. -/
theorem bsp_new_root_underflow_on_empty_witness :
    bsp_new_root_node_id [nodeC4] = some 0 :=
  bsp_new_root_underflow_on_empty.2 [nodeC4] (by decide)

/-- C8: `read_header` reads exactly the 12 header bytes from offset 0 and
fails on a short read, but performs no identification-tag validation: the
unrecognized tag "XXXX" is accepted without a FormatError. -/
theorem read_header_accepts_unrecognized_tag :
    read_header fileC8 = some { identifier := [88, 88, 88, 88], count := 0, offset := 0 }
    ∧ [88, 88, 88, 88] ∉ recognized_magics
    ∧ read_header fileC8short = none := by
  decide

/-- Counterexample for C9: the entry named "A\0B" (interior NUL) does not
match "AB" under the claim's trailing-NUL-stripping comparison, so the
claim requires `change_map` to return false and leave the state
unchanged; the code's strip-all-NULs comparison matches it instead. -/
theorem change_map_trailing_nul_counterexample :
    wadC9.directory = [{ offset := 0, size := 0, name := [65, 0, 66, 0, 0, 0, 0, 0] }]
    ∧ trim_trailing_nuls [65, 0, 66, 0, 0, 0, 0, 0] ≠ [65, 66]
    ∧ change_map wadC9 [65, 66] ≠ (some false, wadC9) := by
  decide

/-- C9 (amended): `change_map` scans the directory linearly and selects
the first entry whose name with every NUL byte removed (as
`slice_to_string` strips all NULs, not only trailing padding) equals the
requested name, case-sensitively; when no entry matches under that
comparison it returns false and mutates nothing. -/
theorem change_map_scan_all_nul_strip (w : WAD) (name : List Nat) :
    ((∀ d ∈ w.directory, slice_to_string d.name ≠ name) →
      change_map w name = (some false, w))
    ∧ (∀ i d, w.directory.get? i = some d → slice_to_string d.name = name →
        (∀ j dj, j < i → w.directory.get? j = some dj → slice_to_string dj.name ≠ name) →
        (change_map w name).2.map_index = some i) := by
  constructor
  · intro h
    exact change_map_loop_no_match w name w.directory 0 h
  · intro i d hget hname hfirst
    have := change_map_loop_first_match w name w.directory 0 i d hget hname hfirst
    simpa [change_map] using this

/-- Witness for C9: on a directory whose only entry is named "A\0B", the
request "AC" matches nothing even after stripping all NULs, so
`change_map` returns false and leaves the state unchanged. -/
theorem change_map_scan_all_nul_strip_witness :
    change_map wadC9 [65, 67] = (some false, wadC9) :=
  (change_map_scan_all_nul_strip wadC9 [65, 67]).1 (by decide)

/-- A node whose two children are the leaf references of subsectors 0 and
1: as `i16` bit patterns, `-32768` is `0x8000` (subsector 0) and `-32767`
is `0x8001` (subsector 1). -/
def nodeC3 : Node :=
  { x_partition := 0, y_partition := 0, dx_partition := 1, dy_partition := 0
    front_bbox := [0, 0, 0, 0], back_bbox := [0, 0, 0, 0]
    front_child := -32768, back_child := -32767 }

/-- A one-node tree over two empty subsectors. -/
def wadC3 : WAD :=
  { emptyWAD with
    nodes := [nodeC3]
    ssectors := [{ num_segs := 0, first_seg := 0 }, { num_segs := 0, first_seg := 0 }] }

/-- One subsector covering segs 5 and 6 of a seven-seg array. -/
def wadC10 : WAD :=
  { emptyWAD with
    ssectors := [{ num_segs := 2, first_seg := 5 }]
    segs := List.replicate 7
      { start_vertex := 0, end_vertex := 0, angle := 0
        linedef := 0, direction := 0, offset := 0 } }

/-- C3: a child reference with the high bit 0x8000 set is a leaf —
traversal masks the bit off (for a `u16` value this equals the source's
subtraction of 0x8000), hands exactly that one subsector to the visitor
and does not recurse; a reference without the high bit is a node —
traversal classifies the viewpoint and produces the back child's trace
followed by the front child's when on the back side, and the front
child's followed by the back child's otherwise. -/
theorem render_bsp_node_leaf_mask_and_child_order (w : WAD) (px py : Int) (fuel ref : Nat) :
    (0x8000 ≤ ref → ref < 65536 → ∀ segl, render_sub_sector w (ref &&& 0x7FFF) = some segl →
      render_bsp_node w px py (fuel + 1) ref = some [ref &&& 0x7FFF])
    ∧ (ref < 0x8000 → ∀ node tb tf, w.nodes.get? ref = some node →
      render_bsp_node w px py fuel (toU16 node.back_child) = some tb →
      render_bsp_node w px py fuel (toU16 node.front_child) = some tf →
      render_bsp_node w px py (fuel + 1) ref =
        some (if is_on_back_side px py node then tb ++ tf else tf ++ tb)) := by
  constructor
  · intro h1 h2 segl hsegl
    have hmask : ref &&& 0x7FFF = ref - 0x8000 := by
      have h := Nat.and_pow_two_sub_one_eq_mod ref 15
      norm_num at h
      omega
    rw [hmask] at hsegl ⊢
    rw [render_bsp_node, if_pos h1, hsegl]
  · intro h node tb tf hnode hb hf
    by_cases hside : is_on_back_side px py node = true
    · simp only [render_bsp_node, if_neg (show ¬ (0x8000 : Nat) ≤ ref by omega),
        hnode, hside, hb, hf, if_true]
    · simp only [render_bsp_node, if_neg (show ¬ (0x8000 : Nat) ≤ ref by omega),
        hnode, hb, hf, Bool.not_eq_true] at hside ⊢
      simp [hside]

/-- Witness for C3: on the one-node tree `wadC3`, the leaf reference
0x8000 visits subsector 0 exactly once, and node 0 (a viewpoint on the
back side) produces the back leaf's trace before the front leaf's. -/
theorem render_bsp_node_leaf_mask_and_child_order_witness :
    render_bsp_node wadC3 0 0 (0 + 1) 0x8000 = some [0x8000 &&& 0x7FFF]
    ∧ render_bsp_node wadC3 0 0 (1 + 1) 0 =
        some (if is_on_back_side 0 0 nodeC3 then [1] ++ [0] else [0] ++ [1]) :=
  ⟨(render_bsp_node_leaf_mask_and_child_order wadC3 0 0 0 0x8000).1
      (by decide) (by decide) [] (by decide),
   (render_bsp_node_leaf_mask_and_child_order wadC3 0 0 1 0).2
      (by decide) nodeC3 [1] [0] (by decide) (by decide) (by decide)⟩

/-- C6: the traversal has no visited-node budget and no cycle guard: on
the one-node cyclic tree `wadC6` (both children reference node 0 itself)
the recursion never returns — no amount of fuel makes the model finish,
mirroring the source's unbounded recursion into a stack overflow, rather
than the FormatError the claim requires. -/
theorem render_bsp_node_cycle_never_returns (px py : Int) (fuel : Nat) :
    render_bsp_node wadC6 px py fuel 0 = none := by
  induction fuel with
  | zero => rfl
  | succ f ih =>
    rw [render_bsp_node]
    have h1 : ¬ (0x8000 ≤ (0 : Nat)) := by norm_num
    rw [if_neg h1]
    have h2 : wadC6.nodes.get? 0 =
        some { x_partition := 0, y_partition := 0, dx_partition := 1, dy_partition := 1
               front_bbox := [0, 0, 0, 0], back_bbox := [0, 0, 0, 0]
               front_child := 0, back_child := 0 } := rfl
    rw [h2]
    have h3 : toU16 (0 : Int) = 0 := rfl
    dsimp only
    split <;> rw [h3, ih]

/-- C10: a visited subsector's segs are exactly the contiguous index
range `first_seg, …, first_seg + num_segs - 1` of the seg array,
processed in strictly increasing order, each exactly once, and every
processed index stays in the `i16` range (the source's index addition
does not overflow) and inside the seg array. -/
theorem render_sub_sector_contiguous_segs (w : WAD) (id : Nat) (ss : SubSector) (l : List Int)
    (hss : w.ssectors.get? id = some ss)
    (hl : render_sub_sector w id = some l) :
    l = (List.range ss.num_segs.toNat).map (fun i : Nat => ss.first_seg + (i : Int))
    ∧ l.Pairwise (· < ·)
    ∧ (∀ j : Int, j ∈ l ↔ ss.first_seg ≤ j ∧ j < ss.first_seg + ss.num_segs)
    ∧ ∀ j ∈ l, 0 ≤ j ∧ j < 32768 ∧ j < (w.segs.length : Int) := by
  unfold render_sub_sector at hl
  rw [hss] at hl
  dsimp only at hl
  split_ifs at hl with hcond
  · injection hl with hl
    subst hl
    refine ⟨rfl, ?_, ?_, ?_⟩
    · refine (List.pairwise_lt_range _).map _ (fun a b hab => ?_)
      have : (a : Int) < b := by exact_mod_cast hab
      omega
    · intro j
      simp only [List.mem_map, List.mem_range]
      constructor
      · rintro ⟨i, hi, rfl⟩
        have h1 : (0 : Int) ≤ (i : Int) := Int.natCast_nonneg i
        have h2 : ((i : Nat) : Int) < ((ss.num_segs.toNat : Nat) : Int) := by
          exact_mod_cast hi
        have h3 : ((ss.num_segs.toNat : Nat) : Int) = max ss.num_segs 0 := by
          rcases Int.le_total ss.num_segs 0 with h | h
          · simp [Int.toNat_of_nonpos h, h]
          · simp [Int.toNat_of_nonneg h, h]
        constructor <;> omega
      · rintro ⟨h1, h2⟩
        refine ⟨(j - ss.first_seg).toNat, ?_, ?_⟩
        · have ha : (((j - ss.first_seg).toNat : Nat) : Int) = j - ss.first_seg :=
            Int.toNat_of_nonneg (by omega)
          have hb : (((ss.num_segs.toNat : Nat) : Nat) : Int) = ss.num_segs :=
            Int.toNat_of_nonneg (by omega)
          have : (((j - ss.first_seg).toNat : Nat) : Int) < ((ss.num_segs.toNat : Nat) : Int) := by
            omega
          exact_mod_cast this
        · have ha : (((j - ss.first_seg).toNat : Nat) : Int) = j - ss.first_seg :=
            Int.toNat_of_nonneg (by omega)
          omega
    · intro j hj
      rw [List.all_eq_true] at hcond
      have := hcond j hj
      simp only [Bool.and_eq_true, decide_eq_true_eq] at this
      exact ⟨this.1.1, this.1.2, this.2⟩

/-- Witness for C10: subsector 0 of `wadC10` (2 segs starting at 5 in a
7-seg array) yields exactly the seg indices 5 then 6. -/
theorem render_sub_sector_contiguous_segs_witness :
    ([5, 6] : List Int) =
      (List.range ((2 : Int)).toNat).map (fun i : Nat => (5 : Int) + (i : Int))
    ∧ ([5, 6] : List Int).Pairwise (· < ·)
    ∧ (∀ j : Int, j ∈ ([5, 6] : List Int) ↔ (5 : Int) ≤ j ∧ j < 5 + 2)
    ∧ ∀ j ∈ ([5, 6] : List Int), 0 ≤ j ∧ j < 32768 ∧ j < ((7 : Nat) : Int) :=
  render_sub_sector_contiguous_segs wadC10 0 { num_segs := 2, first_seg := 5 } [5, 6]
    (by decide) (by decide)

/-- A well-formed tree constrains both children of every stored node. -/
theorem well_formed_spec (w : WAD) (hwf : well_formed w = true) :
    ∀ i node, w.nodes.get? i = some node →
      good_child w i node.front_child = true ∧ good_child w i node.back_child = true := by
  intro i node hget
  have hi : i < w.nodes.length := by
    by_contra h
    rw [List.get?_eq_none.mpr (by omega)] at hget
    exact absurd hget (by simp)
  unfold well_formed at hwf
  rw [List.all_eq_true] at hwf
  have h := hwf i (List.mem_range.mpr hi)
  rw [hget] at h
  simpa [Bool.and_eq_true] using h

/-- A good child is either a valid leaf or a node of strictly smaller
index. -/
theorem good_child_cases (w : WAD) (i : Nat) (c : Int) (h : good_child w i c = true) :
    (0x8000 ≤ toU16 c ∧ (render_sub_sector w (toU16 c - 0x8000)).isSome = true)
    ∨ (toU16 c < 0x8000 ∧ toU16 c < i) := by
  unfold good_child at h
  simpa [Bool.or_eq_true, Bool.and_eq_true, decide_eq_true_eq] using h

/-- A good child of a stored node is itself a good starting reference. -/
theorem good_child_good_ref (w : WAD) (i : Nat) (c : Int) (hi : i < w.nodes.length)
    (h : good_child w i c = true) : good_ref w (toU16 c) = true := by
  unfold good_ref
  simp only [Bool.or_eq_true, Bool.and_eq_true, decide_eq_true_eq]
  rcases good_child_cases w i c h with ⟨h1, h2⟩ | ⟨h1, h2⟩
  · exact Or.inl ⟨h1, h2⟩
  · exact Or.inr ⟨h1, by omega⟩

/-- A good child of node `i` needs at most `i + 1` fuel. -/
theorem good_child_fuel (w : WAD) (i : Nat) (c : Int) (h : good_child w i c = true) :
    fuel_need (toU16 c) ≤ i + 1 := by
  rcases good_child_cases w i c h with ⟨h1, _⟩ | ⟨h1, h2⟩
  · unfold fuel_need; rw [if_pos h1]; omega
  · unfold fuel_need; rw [if_neg (by omega)]; omega

/-- A good reference without the high bit is a valid node index. -/
theorem good_ref_node (w : WAD) (ref : Nat) (hleaf : ¬ 0x8000 ≤ ref)
    (href : good_ref w ref = true) : ref < w.nodes.length := by
  unfold good_ref at href
  simp only [Bool.or_eq_true, Bool.and_eq_true, decide_eq_true_eq] at href
  rcases href with ⟨h1, _⟩ | ⟨_, h2⟩
  · exact absurd h1 hleaf
  · exact h2

/-- On a well-formed tree the structural leaf list of a good reference is
defined and independent of the fuel, once the fuel is sufficient. -/
theorem reachable_leaves_stable (w : WAD) (hwf : well_formed w = true) :
    ∀ fuel ref, good_ref w ref = true → fuel_need ref ≤ fuel →
      reachable_leaves w fuel ref = reachable_leaves w (fuel_need ref) ref
      ∧ (reachable_leaves w (fuel_need ref) ref).isSome = true := by
  intro fuel
  induction fuel using Nat.strong_induction_on with
  | _ fuel ih =>
    intro ref href hfn
    have hone : 1 ≤ fuel_need ref := by unfold fuel_need; split <;> omega
    cases fuel with
    | zero => omega
    | succ f =>
      by_cases hleaf : 0x8000 ≤ ref
      · have he : fuel_need ref = 1 := by unfold fuel_need; rw [if_pos hleaf]
        rw [he]
        constructor
        · simp [reachable_leaves, hleaf]
        · simp [reachable_leaves, hleaf]
      · have he : fuel_need ref = ref + 2 := by unfold fuel_need; rw [if_neg hleaf]
        have hreflen : ref < w.nodes.length := good_ref_node w ref hleaf href
        have hf : ref + 1 ≤ f := by omega
        obtain ⟨node, hnode⟩ : ∃ node, w.nodes.get? ref = some node := by
          rw [List.get?_eq_get hreflen]; exact ⟨_, rfl⟩
        obtain ⟨hfc, hbc⟩ := well_formed_spec w hwf ref node hnode
        have hgf := good_child_good_ref w ref node.front_child hreflen hfc
        have hgb := good_child_good_ref w ref node.back_child hreflen hbc
        have hff := good_child_fuel w ref node.front_child hfc
        have hfb := good_child_fuel w ref node.back_child hbc
        have ihf := ih f (by omega) (toU16 node.front_child) hgf (by omega)
        have ihb := ih f (by omega) (toU16 node.back_child) hgb (by omega)
        have ihf2 := ih (ref + 1) (by omega) (toU16 node.front_child) hgf (by omega)
        have ihb2 := ih (ref + 1) (by omega) (toU16 node.back_child) hgb (by omega)
        rw [he]
        have he2 : ref + 2 = (ref + 1) + 1 := rfl
        constructor
        · rw [he2, reachable_leaves, reachable_leaves, if_neg hleaf, if_neg hleaf, hnode]
          dsimp only
          rw [ihf.1, ihb.1, ihf2.1, ihb2.1]
        · obtain ⟨lf, hlf⟩ := Option.isSome_iff_exists.mp ihf.2
          obtain ⟨lb, hlb⟩ := Option.isSome_iff_exists.mp ihb.2
          rw [he2, reachable_leaves, if_neg hleaf, hnode]
          dsimp only
          rw [ihf2.1, ihb2.1, hlf, hlb]
          rfl

/-- The traversal trace of a good reference on a well-formed tree is
defined for sufficient fuel and is a permutation of the viewpoint-free
structural leaf list. -/
theorem render_bsp_node_perm_aux (w : WAD) (hwf : well_formed w = true) :
    ∀ fuel ref px py, good_ref w ref = true → fuel_need ref ≤ fuel →
      ∃ l cl, render_bsp_node w px py fuel ref = some l
        ∧ reachable_leaves w (fuel_need ref) ref = some cl ∧ l.Perm cl := by
  intro fuel
  induction fuel using Nat.strong_induction_on with
  | _ fuel ih =>
    intro ref px py href hfn
    have hone : 1 ≤ fuel_need ref := by unfold fuel_need; split <;> omega
    cases fuel with
    | zero => omega
    | succ f =>
      by_cases hleaf : 0x8000 ≤ ref
      · have he : fuel_need ref = 1 := by unfold fuel_need; rw [if_pos hleaf]
        have hsub : (render_sub_sector w (ref - 0x8000)).isSome = true := by
          unfold good_ref at href
          simp only [Bool.or_eq_true, Bool.and_eq_true, decide_eq_true_eq] at href
          rcases href with ⟨_, h2⟩ | ⟨h1, _⟩
          · exact h2
          · omega
        obtain ⟨segl, hsegl⟩ := Option.isSome_iff_exists.mp hsub
        refine ⟨[ref - 0x8000], [ref - 0x8000], ?_, ?_, List.Perm.refl _⟩
        · rw [render_bsp_node, if_pos hleaf, hsegl]
        · rw [he, reachable_leaves, if_pos hleaf]
      · have he : fuel_need ref = ref + 2 := by unfold fuel_need; rw [if_neg hleaf]
        have hreflen : ref < w.nodes.length := good_ref_node w ref hleaf href
        have hf : ref + 1 ≤ f := by omega
        obtain ⟨node, hnode⟩ : ∃ node, w.nodes.get? ref = some node := by
          rw [List.get?_eq_get hreflen]; exact ⟨_, rfl⟩
        obtain ⟨hfc, hbc⟩ := well_formed_spec w hwf ref node hnode
        have hgf := good_child_good_ref w ref node.front_child hreflen hfc
        have hgb := good_child_good_ref w ref node.back_child hreflen hbc
        have hff := good_child_fuel w ref node.front_child hfc
        have hfb := good_child_fuel w ref node.back_child hbc
        obtain ⟨lf, clf, hlf, hclf, hpf⟩ :=
          ih f (by omega) (toU16 node.front_child) px py hgf (by omega)
        obtain ⟨lb, clb, hlb, hclb, hpb⟩ :=
          ih f (by omega) (toU16 node.back_child) px py hgb (by omega)
        have hstf := reachable_leaves_stable w hwf (ref + 1) (toU16 node.front_child) hgf (by omega)
        have hstb := reachable_leaves_stable w hwf (ref + 1) (toU16 node.back_child) hgb (by omega)
        have he2 : ref + 2 = (ref + 1) + 1 := rfl
        have hcl : reachable_leaves w (fuel_need ref) ref = some (clf ++ clb) := by
          rw [he, he2, reachable_leaves, if_neg hleaf, hnode]
          dsimp only
          rw [hstf.1, hstb.1, hclf, hclb]
        by_cases hside : is_on_back_side px py node = true
        · refine ⟨lb ++ lf, clf ++ clb, ?_, hcl, ?_⟩
          · rw [render_bsp_node, if_neg hleaf, hnode]
            dsimp only
            rw [if_pos hside, hlb, hlf]
          · exact (hpb.append hpf).trans (List.perm_append_comm)
        · refine ⟨lf ++ lb, clf ++ clb, ?_, hcl, ?_⟩
          · rw [render_bsp_node, if_neg hleaf, hnode]
            dsimp only
            rw [if_neg hside, hlf, hlb]
          · exact hpf.append hpb

/-- C5: on a well-formed acyclic tree (children valid, node children of
strictly smaller index, as laid out in a WAD) whose reachable leaf list
has no duplicates, traversal from any good reference and any viewpoint
invokes the visitor exactly once per distinct reachable subsector: the
trace is a permutation of the viewpoint-independent structural leaf list
`cl`, so its length, its distinctness and its set of visited subsectors
do not depend on the viewpoint — only the order does. -/
theorem render_bsp_node_visits_each_reachable_subsector_once
    (w : WAD) (px py : Int) (ref fuel : Nat) (cl : List Nat)
    (hwf : well_formed w = true) (href : good_ref w ref = true)
    (hfuel : fuel_need ref ≤ fuel)
    (hcl : reachable_leaves w (fuel_need ref) ref = some cl) (hnd : cl.Nodup) :
    ∃ l, render_bsp_node w px py fuel ref = some l
      ∧ l.Perm cl ∧ l.length = cl.length ∧ l.Nodup ∧ ∀ s, s ∈ l ↔ s ∈ cl := by
  obtain ⟨l, cl2, hl, hcl2, hperm⟩ := render_bsp_node_perm_aux w hwf fuel ref px py href hfuel
  have h : some cl = some cl2 := hcl.symm.trans hcl2
  injection h with h
  subst h
  exact ⟨l, hl, hperm, hperm.length_eq, (hperm.nodup_iff).mpr hnd, fun s => hperm.mem_iff⟩

/-- Witness for C5: on the one-node two-subsector tree `wadC3`, the
traversal from the root visits subsectors 0 and 1 exactly once each. -/
theorem render_bsp_node_visits_each_reachable_subsector_once_witness :
    ∃ l, render_bsp_node wadC3 0 0 2 0 = some l
      ∧ l.Perm [0, 1] ∧ l.length = ([0, 1] : List Nat).length ∧ l.Nodup
      ∧ ∀ s, s ∈ l ↔ s ∈ ([0, 1] : List Nat) :=
  render_bsp_node_visits_each_reachable_subsector_once wadC3 0 0 0 2 [0, 1]
    (by decide) (by decide) (by decide) (by decide) (by decide)

end Doom
